import Mathlib

/-!
Verification development for the local durability / recovery layer of the
repository: the reliability service (versioned checksummed backups, crash
flag, recovery cascade, auto-backup scheduler, retention pruning) and the
performance service (TTL cache, sync-with-retry, auto-save fallback).

The TypeScript services are embedded shallowly: class fields become record
fields, methods become pure functions threading the state, the environment
(clock, IndexedDB success/failure, network outcomes, localStorage) is passed
in explicitly, and thrown exceptions become Except / Option values.
-/

/-! ## JSON values and serialization

The services serialize payloads with JSON.stringify and read them back with
JSON.parse. Payloads are modelled by an inductive JSON value type. -/

inductive Json where
  | null
  | bool (b : Bool)
  | num (n : Int)
  | str (s : String)
  | arr (items : List Json)
  | obj (fields : List (String × Json))

mutual

/-- Models JSON.stringify on a JSON value (string escaping elided: the
payloads in this development contain no characters needing escapes). -/
def encodeJson : Json → String
  | .null => "null"
  | .bool b => if b then "true" else "false"
  | .num n => toString n
  | .str s => "\"" ++ s ++ "\""
  | .arr xs => "[" ++ encodeJsonItems xs ++ "]"
  | .obj fs => "\x7b" ++ encodeJsonFields fs ++ "\x7d"

def encodeJsonItems : List Json → String
  | [] => ""
  | [x] => encodeJson x
  | x :: y :: xs => encodeJson x ++ "," ++ encodeJsonItems (y :: xs)

def encodeJsonFields : List (String × Json) → String
  | [] => ""
  | [(k, v)] => "\"" ++ k ++ "\":" ++ encodeJson v
  | (k, v) :: f :: fs => "\"" ++ k ++ "\":" ++ encodeJson v ++ "," ++ encodeJsonFields (f :: fs)

end

/-- A string held in a backup's content field, as seen by JSON.parse: either
the serialization of a JSON value (JSON.parse succeeds and returns that
value) or a string that is not valid JSON (JSON.parse throws). -/
inductive Content where
  | json (v : Json)
  | raw (s : String)

/-- Models JSON.stringify producing a content string. -/
def jsonStringify (v : Json) : Content := .json v

/-- Models JSON.parse on a content string: the serialization of a value
parses back to it, a non-JSON string throws (here: none). -/
def jsonParse : Content → Option Json
  | .json v => some v
  | .raw _ => none

/-- The character string denoted by a content value. -/
def encodeContent : Content → String
  | .json v => encodeJson v
  | .raw s => s

/-- Models the environment's cryptographic digest (crypto.subtle.digest
SHA-256): a deterministic function from a string to a fixed-width hex
string. The hash itself is external to the repository; the code relies only
on determinism of the digest, which any concrete function provides. -/
def digestString (s : String) : String :=
  String.mk (Nat.toDigits 16 (s.data.foldl (fun h c => (h * 31 + c.toNat) % 4294967296) 5381))

/-! ## localStorage

Modelled as an association list with unique keys maintained by setItem. -/

def LocalStorage := List (String × String)

/-- Models localStorage.setItem: replaces the value of an existing key in
place, otherwise appends the new pair. -/
def setItem (ls : LocalStorage) (key value : String) : LocalStorage :=
  match ls with
  | [] => [(key, value)]
  | (k, v) :: rest =>
    if k = key then (key, value) :: rest else (k, v) :: setItem rest key value

/-- Models localStorage.getItem: the value stored under the key, or none. -/
def getItem (ls : LocalStorage) (key : String) : Option String :=
  match ls with
  | [] => none
  | (k, v) :: rest => if k = key then some v else getItem rest key

/-- Models localStorage.removeItem: drops every pair with the key (keys are
unique in localStorage, so this removes at most one entry in practice). -/
def removeItem (ls : LocalStorage) (key : String) : LocalStorage :=
  ls.filter (fun kv => kv.1 != key)

/-! ## Reliability service: data model (reliabilityService.ts lines 1-25) -/

/-- The BackupData record of reliabilityService.ts. -/
structure BackupData where
  id : String
  content : Content
  timestamp : Nat
  version : Nat
  checksum : String

/-- The RecoveryState record of reliabilityService.ts. -/
structure RecoveryState where
  lastSaved : Nat
  unsavedChanges : Bool
  backupCount : Nat
  crashDetected : Bool

/-- Initial RecoveryState (reliabilityService.ts lines 20-25). -/
def initialRecoveryState : RecoveryState :=
  { lastSaved := 0, unsavedChanges := false, backupCount := 0, crashDetected := false }

/-- The mutable state of a ReliabilityService instance: its in-memory
RecoveryState, the IndexedDB object store of backups, the localStorage it
mirrors state into, and the configured retention bound (maxBackups = 10). -/
structure ServiceState where
  recoveryState : RecoveryState
  store : List BackupData
  ls : LocalStorage
  maxBackups : Nat

def initialService : ServiceState :=
  { recoveryState := initialRecoveryState, store := [], ls := [], maxBackups := 10 }

/-! ## Checksum utility (reliabilityService.ts lines 237-255) -/

/-- Models generateChecksum: SHA-256 digest of the content string, rendered
as hex (reliabilityService.ts lines 238-244). -/
def generateChecksum (data : Content) : String :=
  digestString (encodeContent data)

/-- Models verifyBackup: recompute the checksum of the stored content and
compare with the stored checksum (reliabilityService.ts lines 247-255). -/
def verifyBackup (backup : BackupData) : Bool :=
  generateChecksum backup.content == backup.checksum

/-! ## Backup store operations -/

/-- Models IndexedDB store.put on the backups store (keyPath id): replaces
the entry with the same id in place, otherwise adds the new entry. -/
def putBackup (store : List BackupData) (b : BackupData) : List BackupData :=
  match store with
  | [] => [b]
  | c :: cs => if c.id = b.id then b :: cs else c :: putBackup cs b

/-- Models storeBackup (reliabilityService.ts lines 104-130): persists the
backup; the environment flag storeOk says whether the IndexedDB transaction
succeeds, a failure rejects with a storage error. -/
def storeBackup (storeOk : Bool) (store : List BackupData) (b : BackupData) :
    Except String (List BackupData) :=
  if storeOk then .ok (putBackup store b) else .error "StorageError"

/-- Models deleteBackup (reliabilityService.ts lines 221-235): IndexedDB
delete by key; deleting an absent id is a no-op. -/
def deleteBackup (store : List BackupData) (backupId : String) : List BackupData :=
  store.filter (fun b => b.id != backupId)

/-- Stable insertion step for sorting backups most-recent-first: the new
element goes after every element with a timestamp greater than or equal to
its own, as JavaScript's stable Array.sort with comparator
b.timestamp - a.timestamp places it. -/
def insertByTimestampDesc (b : BackupData) : List BackupData → List BackupData
  | [] => [b]
  | c :: cs =>
    if c.timestamp < b.timestamp then b :: c :: cs else c :: insertByTimestampDesc b cs

/-- Models backups.sort((a, b) => b.timestamp - a.timestamp): a stable sort
by timestamp, most recent first. -/
def sortBackupsDesc (l : List BackupData) : List BackupData :=
  l.foldl (fun acc b => insertByTimestampDesc b acc) []

/-- Models cleanOldBackups (reliabilityService.ts lines 200-218): if more
than maxBackups backups exist, sort by timestamp most-recent-first and
delete every backup past the first maxBackups. -/
def cleanOldBackups (maxBackups : Nat) (store : List BackupData) : List BackupData :=
  if store.length ≤ maxBackups then store
  else
    let sortedBackups := sortBackupsDesc store
    let backupsToDelete := sortedBackups.drop maxBackups
    backupsToDelete.foldl (fun s b => deleteBackup s b.id) store

/-! ## createBackup (reliabilityService.ts lines 76-101) -/

/-- Serialization of the RecoveryState that updateRecoveryState mirrors into
localStorage (reliabilityService.ts lines 289-291). -/
def encodeRecoveryState (rs : RecoveryState) : String :=
  encodeJson (.obj
    [("lastSaved", .num (rs.lastSaved : Int)),
     ("unsavedChanges", .bool rs.unsavedChanges),
     ("backupCount", .num (rs.backupCount : Int)),
     ("crashDetected", .bool rs.crashDetected)])

/-- The BackupData value that createBackup builds before persisting
(reliabilityService.ts lines 78-84): id from the clock, content the
serialized payload, version = backupCount + 1, checksum the digest of the
serialized payload. -/
def mkBackup (now : Nat) (data : Json) (st : ServiceState) : BackupData :=
  { id := "backup_" ++ toString now
    content := jsonStringify data
    timestamp := now
    version := st.recoveryState.backupCount + 1
    checksum := generateChecksum (jsonStringify data) }

/-- Models createBackup (reliabilityService.ts lines 76-101): build the
stamped backup, persist via storeBackup; on success increment backupCount,
mirror the RecoveryState to localStorage and prune old backups; on storage
failure rethrow, having mutated nothing. Returns the state as left by the
call together with ok or the rethrown error. -/
def createBackup (storeOk : Bool) (now : Nat) (data : Json) (st : ServiceState) :
    ServiceState × Except String Unit :=
  let backup := mkBackup now data st
  match storeBackup storeOk st.store backup with
  | .error e => (st, .error e)
  | .ok store1 =>
    let rs1 := { st.recoveryState with backupCount := st.recoveryState.backupCount + 1 }
    let ls1 := setItem st.ls "codebuddy_recovery_state" (encodeRecoveryState rs1)
    let store2 := cleanOldBackups st.maxBackups store1
    ({ st with recoveryState := rs1, store := store2, ls := ls1 }, .ok ())

/-- Iterated successful createBackup calls from the initial service state,
the k-th call at clock time k with a trivial payload. -/
def runCreates : Nat → ServiceState
  | 0 => initialService
  | n + 1 => (createBackup true (n + 1) Json.null (runCreates n)).1

/-! ## Recovery engine (reliabilityService.ts lines 133-178, 258-264) -/

/-- Models validateRecoveredData (reliabilityService.ts lines 258-264): the
decoded payload must be a truthy object whose files property is an array. -/
def validateRecoveredData : Json → Bool
  | .obj fields =>
    match fields.lookup "files" with
    | some (.arr _) => true
    | _ => false
  | _ => false

/-- Models recoverFromBackup (reliabilityService.ts lines 162-178): parse
the content (a parse error propagates as a failed recovery), validate the
structure, and return the payload; none is the thrown/none outcome the
caller observes. -/
def recoverFromBackup (backup : BackupData) : Option Json :=
  match jsonParse backup.content with
  | none => none
  | some data => if validateRecoveredData data then some data else none

/-- Models recoverFromCrash (reliabilityService.ts lines 133-159): with no
backups return null; otherwise sort most-recent-first and checksum-verify
the latest backup only. If it verifies, recover from it; if not, recover
from backups[1] — the second-newest — whose checksum is never verified; if
backups[1] does not exist the thrown access error is caught and null is
returned. Every error inside is caught and yields null. -/
def recoverFromCrash (backups : List BackupData) : Option Json :=
  if backups.length = 0 then none
  else
    match sortBackupsDesc backups with
    | [] => none
    | latestBackup :: rest =>
      if verifyBackup latestBackup then recoverFromBackup latestBackup
      else
        match rest with
        | [] => none
        | second :: _ => recoverFromBackup second

/-! ## Crash flag (reliabilityService.ts lines 34-50 and 315-319) -/

def crashFlagKey : String := "codebuddy_crash_flag"

/-- Models setting the crash flag at startup:
localStorage.setItem of the crash-flag key to the string true
(reliabilityService.ts line 44). -/
def markSessionActive (ls : LocalStorage) : LocalStorage :=
  setItem ls crashFlagKey "true"

/-- Models clearing the crash flag on graceful shutdown:
localStorage.removeItem of the crash-flag key (reliabilityService.ts
lines 47-49 and 317). -/
def clearCrashFlag (ls : LocalStorage) : LocalStorage :=
  removeItem ls crashFlagKey

/-- Models the startup crash check (reliabilityService.ts lines 36-41): the
stored crash-flag string read by getItem is truthy, that is, present and
non-empty. -/
def wasPriorSessionUnclean (ls : LocalStorage) : Bool :=
  match getItem ls crashFlagKey with
  | some s => s != ""
  | none => false

/-! ## Auto-backup scheduler (reliabilityService.ts lines 53-73)

The timer environment is modelled explicitly: liveTimers is the set of
interval timers currently installed with the host, nextTimerId a fresh-id
counter, backupTimer the handle held in the backupTimer field. -/

structure SchedulerState where
  backupTimer : Option Nat
  liveTimers : List Nat
  nextTimerId : Nat

def initialScheduler : SchedulerState :=
  { backupTimer := none, liveTimers := [], nextTimerId := 0 }

/-- Models stopAutoBackup (reliabilityService.ts lines 68-73): if a timer
handle is held, clearInterval it and null the field. -/
def stopAutoBackup (st : SchedulerState) : SchedulerState :=
  match st.backupTimer with
  | some t => { st with backupTimer := none, liveTimers := st.liveTimers.erase t }
  | none => st

/-- Models startAutoBackup (reliabilityService.ts lines 53-66): first
stopAutoBackup, then install a fresh interval timer and hold its handle. -/
def startAutoBackup (st : SchedulerState) : SchedulerState :=
  let s := stopAutoBackup st
  { backupTimer := some s.nextTimerId
    liveTimers := s.liveTimers ++ [s.nextTimerId]
    nextTimerId := s.nextTimerId + 1 }

inductive SchedulerOp where
  | start
  | stop

/-- Any sequence of startAutoBackup / stopAutoBackup calls on a fresh
scheduler instance. -/
def runScheduler (ops : List SchedulerOp) : SchedulerState :=
  ops.foldl
    (fun st op =>
      match op with
      | .start => startAutoBackup st
      | .stop => stopAutoBackup st)
    initialScheduler

/-! ## Performance service: TTL cache (performanceService.ts lines 19-21, 58-85) -/

/-- A cache entry as stored by setCache: the value and its absolute expiry
time (performanceService.ts lines 59-62). -/
structure CacheItem (α : Type) where
  value : α
  expires : Nat

/-- The cache-related state of a PerformanceService instance: the Map of
entries and the hit / miss counters. -/
structure CacheState (α : Type) where
  cache : List (String × CacheItem α)
  cacheHits : Nat
  cacheMisses : Nat

def initialCache (α : Type) : CacheState α :=
  { cache := [], cacheHits := 0, cacheMisses := 0 }

/-- Models Map.get: the entry stored under the key, if any. -/
def mapGet {β : Type} (m : List (String × β)) (key : String) : Option β :=
  match m with
  | [] => none
  | (k, v) :: rest => if k = key then some v else mapGet rest key

/-- Models Map.set: replaces the entry with the key in place, otherwise
appends (JavaScript Map keys are unique). -/
def mapSet {β : Type} (m : List (String × β)) (key : String) (v : β) :
    List (String × β) :=
  match m with
  | [] => [(key, v)]
  | (k, w) :: rest => if k = key then (key, v) :: rest else (k, w) :: mapSet rest key v

/-- Models Map.delete: removes the entry with the key. -/
def mapDelete {β : Type} (m : List (String × β)) (key : String) :
    List (String × β) :=
  match m with
  | [] => []
  | (k, w) :: rest => if k = key then rest else (k, w) :: mapDelete rest key

/-- Models setCache (performanceService.ts lines 58-63): store the value
with expiry now + ttl. -/
def setCache {α : Type} (st : CacheState α) (key : String) (value : α)
    (ttl now : Nat) : CacheState α :=
  { st with cache := mapSet st.cache key { value := value, expires := now + ttl } }

/-- Models getCache (performanceService.ts lines 65-80): an absent key is a
miss; an entry whose expiry is strictly in the past is evicted and counted
as a miss; otherwise the value is returned and counted as a hit. -/
def getCache {α : Type} (st : CacheState α) (key : String) (now : Nat) :
    Option α × CacheState α :=
  match mapGet st.cache key with
  | none => (none, { st with cacheMisses := st.cacheMisses + 1 })
  | some item =>
    if item.expires < now then
      (none, { st with cache := mapDelete st.cache key,
                       cacheMisses := st.cacheMisses + 1 })
    else
      (some item.value, { st with cacheHits := st.cacheHits + 1 })

/-! ## Sync with retry (performanceService.ts lines 142-181) -/

/-- The retry cap of syncToServer (performanceService.ts line 143). -/
def maxRetries : Nat := 3

/-- Observable outcome of a syncToServer call: whether it returned
normally, how many attempts failed, and the backoff delays waited. -/
structure SyncTrace where
  success : Bool
  failedAttempts : Nat
  delays : List Nat
deriving DecidableEq, Repr

/-- The retry loop of syncToServer (performanceService.ts lines 146-180).
outcomes gives the environment's verdict on each fetch attempt (indexed
from 0); retries is the loop counter; the fuel equals
maxRetries - retries, so the zero-fuel branch mirrors the loop guard
retries < maxRetries failing. On a failed attempt the counter increments;
reaching the cap rethrows, otherwise the loop waits 2 ^ retries * 1000
milliseconds and tries again. -/
def syncAux (outcomes : Nat → Bool) : Nat → Nat → List Nat → SyncTrace
  | 0, retries, ds => { success := false, failedAttempts := retries, delays := ds }
  | fuel + 1, retries, ds =>
    if outcomes retries then
      { success := true, failedAttempts := retries, delays := ds }
    else if maxRetries ≤ retries + 1 then
      { success := false, failedAttempts := retries + 1, delays := ds }
    else
      syncAux outcomes fuel (retries + 1) (ds ++ [2 ^ (retries + 1) * 1000])

/-- Models syncToServer (performanceService.ts lines 142-181), abstracting
each fetch attempt's success/failure into outcomes. -/
def syncToServer (outcomes : Nat → Bool) : SyncTrace :=
  syncAux outcomes maxRetries 0 []

/-! ## Auto-save with degraded-mode fallback (performanceService.ts
lines 88-139, 184-196) -/

/-- A record in the CodeBuddyDB files store (performanceService.ts
lines 119-124). -/
structure IdbFile where
  id : String
  content : String
  timestamp : Nat
  synced : Bool

/-- Models IndexedDB store.put on the files store (keyPath id). -/
def putFile (files : List IdbFile) (f : IdbFile) : List IdbFile :=
  match files with
  | [] => [f]
  | g :: gs => if g.id = f.id then f :: gs else g :: putFile gs f

/-- Models saveToIndexedDB (performanceService.ts lines 108-139): persist
the file record; the environment flag idbOk says whether the transaction
succeeds. -/
def saveToIndexedDB (idbOk : Bool) (files : List IdbFile)
    (fileId content : String) (now : Nat) : Except String (List IdbFile) :=
  if idbOk then
    .ok (putFile files { id := fileId, content := content, timestamp := now, synced := false })
  else
    .error "StorageError"

/-- The JSON string handleAutoSaveError writes under the backup key
(performanceService.ts lines 187-190). -/
def fallbackPayload (content : String) (now : Nat) : String :=
  encodeJson (.obj [("content", .str content), ("timestamp", .num (now : Int))])

/-- Models handleAutoSaveError (performanceService.ts lines 184-196): write
the failing content under the key backup_ followed by the fileId into
localStorage; if that write itself throws (lsOk false) the error is
swallowed and nothing is stored. -/
def handleAutoSaveError (lsOk : Bool) (ls : LocalStorage)
    (fileId content : String) (now : Nat) : LocalStorage :=
  if lsOk then setItem ls ("backup_" ++ fileId) (fallbackPayload content now) else ls

/-- Models autoSave (performanceService.ts lines 88-105): save to IndexedDB,
then, when online, sync to the server with retries; any error from either
step is caught and routed to handleAutoSaveError with the same fileId and
content. Returns the resulting files store and localStorage. -/
def autoSave (idbOk online lsOk : Bool) (outcomes : Nat → Bool)
    (files : List IdbFile) (ls : LocalStorage)
    (fileId content : String) (now : Nat) : List IdbFile × LocalStorage :=
  match saveToIndexedDB idbOk files fileId content now with
  | .error _ => (files, handleAutoSaveError lsOk ls fileId content now)
  | .ok files1 =>
    if online then
      if (syncToServer outcomes).success then (files1, ls)
      else (files1, handleAutoSaveError lsOk ls fileId content now)
    else (files1, ls)

/-! ## Helper lemmas on the storage primitives -/

theorem getItem_setItem (ls : LocalStorage) (key v : String) :
    getItem (setItem ls key v) key = some v := by
  induction ls with
  | nil => simp [setItem, getItem]
  | cons head rest ih =>
    obtain ⟨k, w⟩ := head
    by_cases h : k = key
    · simp [setItem, getItem, h]
    · simp [setItem, getItem, h, ih]

theorem getItem_removeItem (ls : LocalStorage) (key : String) :
    getItem (removeItem ls key) key = none := by
  induction ls with
  | nil => rfl
  | cons head rest ih =>
    obtain ⟨k, w⟩ := head
    by_cases h : k = key
    · simpa [removeItem, List.filter_cons, h] using ih
    · simpa [removeItem, getItem, List.filter_cons, h] using ih

theorem mapGet_mapSet {β : Type} (m : List (String × β)) (key : String) (v : β) :
    mapGet (mapSet m key v) key = some v := by
  induction m with
  | nil => simp [mapSet, mapGet]
  | cons head rest ih =>
    obtain ⟨k, w⟩ := head
    by_cases h : k = key
    · simp [mapSet, mapGet, h]
    · simp [mapSet, mapGet, h, ih]

/-! ## C5: crash-flag round trip -/

/-- C5: after markSessionActive (setting the durable crash flag),
wasPriorSessionUnclean returns true; after markSessionActive followed by
clearing the flag, wasPriorSessionUnclean returns false. -/
theorem crashFlag_roundTrip (ls : LocalStorage) :
    wasPriorSessionUnclean (markSessionActive ls) = true ∧
    wasPriorSessionUnclean (clearCrashFlag (markSessionActive ls)) = false := by
  constructor
  · simp [wasPriorSessionUnclean, markSessionActive, getItem_setItem]
  · simp [wasPriorSessionUnclean, clearCrashFlag, getItem_removeItem]

/-! ## C4: checksum round trip between creation and verification -/

/-- C4: the checksum stamped by createBackup equals the digest of the stored
content, so verifying a just-created snapshot succeeds, and verification
stays true for any snapshot holding the same content and checksum. -/
theorem verifyBackup_after_create (now : Nat) (data : Json) (st : ServiceState)
    (b b' : BackupData) (hb : b = mkBackup now data st)
    (hc : b'.content = b.content) (hk : b'.checksum = b.checksum) :
    b.checksum = generateChecksum b.content ∧
    verifyBackup b = true ∧ verifyBackup b' = true := by
  subst hb
  refine ⟨rfl, ?_, ?_⟩
  · simp [verifyBackup, mkBackup]
  · simp [verifyBackup, hc, hk, mkBackup]

/-- Witness for C4 at a concrete creation. -/
theorem verifyBackup_after_create_witness :
    verifyBackup (mkBackup 1 Json.null initialService) = true :=
  (verifyBackup_after_create 1 Json.null initialService
    (mkBackup 1 Json.null initialService) (mkBackup 1 Json.null initialService)
    rfl rfl rfl).2.1

/-! ## C10: createBackup atomicity on storage failure -/

/-- C10: when storing the snapshot fails, createBackup rethrows the storage
error and leaves the service state — in particular the in-memory
RecoveryState — exactly as it was before the call. -/
theorem createBackup_atomic_on_storage_failure (now : Nat) (data : Json)
    (st : ServiceState) :
    (createBackup false now data st).1 = st ∧
    (createBackup false now data st).2 = Except.error "StorageError" :=
  ⟨rfl, rfl⟩

/-! ## C9: at most one active auto-backup timer -/

/-- The timer bookkeeping invariant: the live interval timers of the
scheduler instance are exactly the held handle, if any. -/
def timerInv (st : SchedulerState) : Prop :=
  st.liveTimers = match st.backupTimer with
    | some t => [t]
    | none => []

theorem timerInv_stop (st : SchedulerState) (h : timerInv st) :
    timerInv (stopAutoBackup st) := by
  unfold timerInv at *
  cases hb : st.backupTimer with
  | none => simpa [stopAutoBackup, hb] using h
  | some t =>
    rw [hb] at h
    simp [stopAutoBackup, hb, h]

theorem stop_backupTimer_none (st : SchedulerState) :
    (stopAutoBackup st).backupTimer = none := by
  cases hb : st.backupTimer <;> simp [stopAutoBackup, hb]

theorem timerInv_start (st : SchedulerState) (h : timerInv st) :
    timerInv (startAutoBackup st) := by
  have h' := timerInv_stop st h
  unfold timerInv at h' ⊢
  rw [stop_backupTimer_none] at h'
  simp [startAutoBackup, h']

theorem timerInv_run (ops : List SchedulerOp) : timerInv (runScheduler ops) := by
  unfold runScheduler
  have general : ∀ (l : List SchedulerOp) (st : SchedulerState), timerInv st →
      timerInv (l.foldl
        (fun st op =>
          match op with
          | .start => startAutoBackup st
          | .stop => stopAutoBackup st) st) := by
    intro l
    induction l with
    | nil => intro st h; exact h
    | cons op l ih =>
      intro st h
      cases op with
      | start => exact ih _ (timerInv_start st h)
      | stop => exact ih _ (timerInv_stop st h)
  exact general ops initialScheduler rfl

/-- C9: after any sequence of start/stop calls on one scheduler instance, at
most one interval timer is live; a stop leaves none live; a start (which
first stops the previous timer) leaves exactly the newly installed one. -/
theorem scheduler_single_timer (ops : List SchedulerOp) :
    (runScheduler ops).liveTimers.length ≤ 1 ∧
    (stopAutoBackup (runScheduler ops)).liveTimers = [] ∧
    ∃ t, (startAutoBackup (runScheduler ops)).liveTimers = [t] ∧
         (startAutoBackup (runScheduler ops)).backupTimer = some t := by
  have h := timerInv_run ops
  refine ⟨?_, ?_, ?_⟩
  · unfold timerInv at h
    cases hb : (runScheduler ops).backupTimer <;> rw [hb] at h <;> simp [h]
  · have h' := timerInv_stop _ h
    unfold timerInv at h'
    rw [stop_backupTimer_none] at h'
    exact h'
  · cases hb : (startAutoBackup (runScheduler ops)).backupTimer with
    | none => exact absurd hb (by simp [startAutoBackup])
    | some t =>
      refine ⟨t, ?_, rfl⟩
      have h' := timerInv_start _ h
      unfold timerInv at h'
      rw [hb] at h'
      exact h'

/-! ## C6: sync retry with exponential backoff -/

/-- C6: syncToServer retries failed attempts up to the cap of 3 attempts
with delays doubling per retry (2000ms then 4000ms); if the first two
attempts fail and the third succeeds, the call completes successfully with
exactly 2 failed attempts; if all attempts up to the cap fail, the failure
propagates to the caller. -/
theorem syncToServer_retry (outcomes : Nat → Bool)
    (h0 : outcomes 0 = false) (h1 : outcomes 1 = false) :
    (outcomes 2 = true →
      syncToServer outcomes =
        { success := true, failedAttempts := 2, delays := [2000, 4000] }) ∧
    (outcomes 2 = false →
      syncToServer outcomes =
        { success := false, failedAttempts := 3, delays := [2000, 4000] }) := by
  constructor <;> intro h2 <;>
    simp [syncToServer, syncAux, maxRetries, h0, h1, h2]

/-- Witness for C6: two failures then a success. -/
theorem syncToServer_retry_witness :
    syncToServer (fun n => n == 2) =
      { success := true, failedAttempts := 2, delays := [2000, 4000] } :=
  (syncToServer_retry (fun n => n == 2) rfl rfl).1 rfl

/-! ## C8: TTL cache semantics -/

/-- C8: setCache stores the value with expiry now + ttl; getCache at a time
not past the expiry returns the stored value and counts a hit; getCache on
an absent key is a miss counted in the miss counter; getCache at a time
strictly after the expiry is a miss counted in the miss counter and evicts
the stale entry. -/
theorem ttlCache_semantics {α : Type} (st : CacheState α) (k : String) (v : α)
    (ttl now t : Nat) :
    (mapGet (setCache st k v ttl now).cache k = some { value := v, expires := now + ttl }) ∧
    (t ≤ now + ttl →
      getCache (setCache st k v ttl now) k t =
        (some v, { setCache st k v ttl now with cacheHits := st.cacheHits + 1 })) ∧
    (now + ttl < t →
      getCache (setCache st k v ttl now) k t =
        (none, { setCache st k v ttl now with
                   cache := mapDelete (setCache st k v ttl now).cache k,
                   cacheMisses := st.cacheMisses + 1 })) ∧
    (mapGet st.cache k = none →
      getCache st k t = (none, { st with cacheMisses := st.cacheMisses + 1 })) := by
  refine ⟨?_, ?_, ?_, ?_⟩
  · simp [setCache, mapGet_mapSet]
  · intro ht
    simp [getCache, setCache, mapGet_mapSet, Nat.not_lt.mpr ht]
  · intro ht
    simp [getCache, setCache, mapGet_mapSet, ht]
  · intro habs
    simp [getCache, habs]

/-- Witness for C8: a hit before expiry and a counted, evicting miss after
expiry, on a concrete cache. -/
theorem ttlCache_semantics_witness :
    getCache (setCache (initialCache Nat) "k" 1 100 0) "k" 50 =
      (some 1, { setCache (initialCache Nat) "k" 1 100 0 with
                   cacheHits := (initialCache Nat).cacheHits + 1 }) ∧
    getCache (setCache (initialCache Nat) "k" 1 100 0) "k" 150 =
      (none, { setCache (initialCache Nat) "k" 1 100 0 with
                 cache := mapDelete (setCache (initialCache Nat) "k" 1 100 0).cache "k",
                 cacheMisses := (initialCache Nat).cacheMisses + 1 }) :=
  ⟨(ttlCache_semantics (initialCache Nat) "k" 1 100 0 50).2.1 (by decide),
   (ttlCache_semantics (initialCache Nat) "k" 1 100 0 150).2.2.1 (by decide)⟩

/-! ## C7: auto-save degraded-mode fallback -/

/-- C7: when the auto-save's persistence step fails, or the sync step fails
after exhausting its retries, the failing content/fileId pair is written
into local durable storage under the key backup_ followed by the fileId
(assuming the fallback write itself is accepted by the storage). -/
theorem autoSave_fallback (idbOk online : Bool) (outcomes : Nat → Bool)
    (files : List IdbFile) (ls : LocalStorage) (fileId content : String) (now : Nat)
    (hfail : idbOk = false ∨ (online = true ∧ (syncToServer outcomes).success = false)) :
    getItem (autoSave idbOk online true outcomes files ls fileId content now).2
      ("backup_" ++ fileId) = some (fallbackPayload content now) := by
  rcases hfail with h | ⟨ho, hs⟩
  · subst h
    simp [autoSave, saveToIndexedDB, handleAutoSaveError, getItem_setItem]
  · subst ho
    cases idbOk with
    | false => simp [autoSave, saveToIndexedDB, handleAutoSaveError, getItem_setItem]
    | true => simp [autoSave, saveToIndexedDB, hs, handleAutoSaveError, getItem_setItem]

/-- Witness for C7: online auto-save whose sync fails on every attempt falls
back to the localStorage backup entry. -/
theorem autoSave_fallback_witness :
    getItem (autoSave true true true (fun _ => false) [] [] "f" "c" 7).2
      ("backup_" ++ "f") = some (fallbackPayload "c" 7) :=
  autoSave_fallback true true (fun _ => false) [] [] "f" "c" 7
    (Or.inr ⟨rfl, by decide⟩)

/-! ## Sorting lemmas for the retention policy and recovery -/

theorem insertByTimestampDesc_perm (b : BackupData) (l : List BackupData) :
    List.Perm (insertByTimestampDesc b l) (b :: l) := by
  induction l with
  | nil => exact List.Perm.refl _
  | cons c cs ih =>
    by_cases h : c.timestamp < b.timestamp
    · simp [insertByTimestampDesc, h]
    · simp only [insertByTimestampDesc, if_neg h]
      exact (ih.cons c).trans (List.Perm.swap b c cs)

theorem foldl_insert_perm (l acc : List BackupData) :
    List.Perm (l.foldl (fun acc b => insertByTimestampDesc b acc) acc) (acc ++ l) := by
  induction l generalizing acc with
  | nil => simp
  | cons x xs ih =>
    refine (ih (insertByTimestampDesc x acc)).trans ?_
    exact ((insertByTimestampDesc_perm x acc).append_right xs).trans List.perm_middle.symm

theorem sortBackupsDesc_perm (l : List BackupData) :
    List.Perm (sortBackupsDesc l) l := by
  simpa using foldl_insert_perm l []

theorem insertByTimestampDesc_pairwise (b : BackupData) (l : List BackupData)
    (h : l.Pairwise (fun x y => y.timestamp ≤ x.timestamp)) :
    (insertByTimestampDesc b l).Pairwise (fun x y => y.timestamp ≤ x.timestamp) := by
  induction l with
  | nil => simp [insertByTimestampDesc]
  | cons c cs ih =>
    rw [List.pairwise_cons] at h
    obtain ⟨hc, hcs⟩ := h
    by_cases hlt : c.timestamp < b.timestamp
    · simp only [insertByTimestampDesc, if_pos hlt, List.pairwise_cons]
      refine ⟨?_, hc, hcs⟩
      intro y hy
      rcases List.mem_cons.mp hy with rfl | hy'
      · exact Nat.le_of_lt hlt
      · exact Nat.le_trans (hc y hy') (Nat.le_of_lt hlt)
    · simp only [insertByTimestampDesc, if_neg hlt, List.pairwise_cons]
      refine ⟨?_, ih hcs⟩
      intro y hy
      have hy2 : y ∈ b :: cs := (insertByTimestampDesc_perm b cs).mem_iff.mp hy
      rcases List.mem_cons.mp hy2 with rfl | hy'
      · exact Nat.le_of_not_lt hlt
      · exact hc y hy'

theorem sortBackupsDesc_sorted (l : List BackupData) :
    (sortBackupsDesc l).Pairwise (fun x y => y.timestamp ≤ x.timestamp) := by
  unfold sortBackupsDesc
  have general : ∀ (l acc : List BackupData),
      acc.Pairwise (fun x y => y.timestamp ≤ x.timestamp) →
      (l.foldl (fun acc b => insertByTimestampDesc b acc) acc).Pairwise
        (fun x y => y.timestamp ≤ x.timestamp) := by
    intro l
    induction l with
    | nil => intro acc h; exact h
    | cons x xs ih =>
      intro acc h
      exact ih _ (insertByTimestampDesc_pairwise x acc h)
  exact general l [] (by simp)

theorem mem_foldl_delete (L store : List BackupData) (b : BackupData) :
    b ∈ L.foldl (fun s x => deleteBackup s x.id) store ↔
      b ∈ store ∧ ∀ x ∈ L, b.id ≠ x.id := by
  induction L generalizing store with
  | nil => simp
  | cons x L ih =>
    rw [List.foldl_cons, ih]
    simp only [deleteBackup, List.mem_filter, bne_iff_ne, ne_eq, List.mem_cons]
    constructor
    · rintro ⟨⟨hb, hbx⟩, hall⟩
      refine ⟨hb, ?_⟩
      rintro y (rfl | hy)
      · exact hbx
      · exact hall y hy
    · rintro ⟨hb, hall⟩
      exact ⟨⟨hb, hall x (Or.inl rfl)⟩, fun y hy => hall y (Or.inr hy)⟩

/-! ## C3: pruning keeps the newest snapshot and deletes exactly the rest -/

/-- C3: for any retention bound of at least 1, cleanOldBackups never deletes
the single most-recently-created snapshot (the unique snapshot with maximal
timestamp), and the snapshots it keeps are exactly the maxBackups newest
ones (all of them when the store is within the bound); snapshot ids are
unique in the store, as IndexedDB's keyPath guarantees. -/
theorem cleanOldBackups_keeps_newest (maxB : Nat) (store : List BackupData)
    (s : BackupData) (hmax : 1 ≤ maxB) (hs : s ∈ store)
    (hnewest : ∀ b ∈ store, b ≠ s → b.timestamp < s.timestamp)
    (hids : (store.map (fun b => b.id)).Nodup) :
    s ∈ cleanOldBackups maxB store ∧
    (∀ b : BackupData,
      b ∈ cleanOldBackups maxB store ↔
        b ∈ (if store.length ≤ maxB then store
             else (sortBackupsDesc store).take maxB)) := by
  by_cases hlen : store.length ≤ maxB
  · constructor
    · simpa [cleanOldBackups, hlen] using hs
    · intro b
      simp [cleanOldBackups, hlen]
  · have hperm := sortBackupsDesc_perm store
    have hpw := sortBackupsDesc_sorted store
    set sorted := sortBackupsDesc store with hsortedDef
    have hresult : ∀ b : BackupData,
        b ∈ cleanOldBackups maxB store ↔
          b ∈ store ∧ ∀ x ∈ sorted.drop maxB, b.id ≠ x.id := by
      intro b
      have heq : cleanOldBackups maxB store
          = (sorted.drop maxB).foldl (fun s x => deleteBackup s x.id) store := by
        unfold cleanOldBackups
        rw [if_neg hlen]
      rw [heq]
      exact mem_foldl_delete _ _ b
    have hidsSorted : (sorted.map (fun b => b.id)).Nodup :=
      ((hperm.map (fun b => b.id)).nodup_iff).mpr hids
    have hsplit : sorted.take maxB ++ sorted.drop maxB = sorted :=
      List.take_append_drop _ _
    have hdisj : ∀ b ∈ sorted.take maxB, ∀ x ∈ sorted.drop maxB, b.id ≠ x.id := by
      intro b hb x hx heq
      have hnodup : ((sorted.take maxB ++ sorted.drop maxB).map
          (fun b => b.id)).Nodup := by
        rw [hsplit]
        exact hidsSorted
      rw [List.map_append, List.nodup_append] at hnodup
      refine hnodup.2.2 (List.mem_map_of_mem _ hb) ?_
      rw [heq]
      exact List.mem_map_of_mem _ hx
    have hchar : ∀ b ∈ store,
        ((∀ x ∈ sorted.drop maxB, b.id ≠ x.id) ↔ b ∈ sorted.take maxB) := by
      intro b hb
      constructor
      · intro hall
        have hbs : b ∈ sorted := hperm.mem_iff.mpr hb
        rw [← hsplit] at hbs
        rcases List.mem_append.mp hbs with h | h
        · exact h
        · exact absurd rfl (hall b h)
      · intro htake x hx
        exact hdisj b htake x hx
    constructor
    · have hmem_s_sorted : s ∈ sorted := hperm.mem_iff.mpr hs
      obtain ⟨h, t, hht⟩ : ∃ h t, sorted = h :: t := by
        cases hc : sorted with
        | nil => rw [hc] at hmem_s_sorted; cases hmem_s_sorted
        | cons h t => exact ⟨h, t, rfl⟩
      have hh_eq : h = s := by
        by_contra hne
        have hhmem : h ∈ store := hperm.mem_iff.mp (by rw [hht]; exact List.mem_cons_self h t)
        have hlt := hnewest h hhmem hne
        rw [hht] at hmem_s_sorted
        rcases List.mem_cons.mp hmem_s_sorted with rfl | hst
        · exact hne rfl
        · rw [hht, List.pairwise_cons] at hpw
          have := hpw.1 s hst
          omega
      have hstake : s ∈ sorted.take maxB := by
        obtain ⟨m, rfl⟩ : ∃ m, maxB = m + 1 := ⟨maxB - 1, by omega⟩
        rw [hht, List.take_succ_cons, hh_eq]
        exact List.mem_cons_self s _
      rw [hresult s]
      exact ⟨hs, (hchar s hs).mpr hstake⟩
    · intro b
      rw [hresult b, if_neg hlen]
      constructor
      · rintro ⟨hb, hall⟩
        exact (hchar b hb).mp hall
      · intro htake
        have hb : b ∈ store := by
          refine hperm.mem_iff.mp ?_
          rw [← hsplit]
          exact List.mem_append.mpr (Or.inl htake)
        exact ⟨hb, (hchar b hb).mpr htake⟩

/-- An older snapshot used by the pruning witness. -/
def pruneWitnessOld : BackupData :=
  { id := "a", content := .raw "x", timestamp := 1, version := 1, checksum := "c1" }

/-- The newest snapshot used by the pruning witness. -/
def pruneWitnessNew : BackupData :=
  { id := "b", content := .raw "y", timestamp := 2, version := 2, checksum := "c2" }

/-- Witness for C3: pruning a two-snapshot store down to one keeps the
newest snapshot. -/
theorem cleanOldBackups_keeps_newest_witness :
    pruneWitnessNew ∈ cleanOldBackups 1 [pruneWitnessOld, pruneWitnessNew] :=
  (cleanOldBackups_keeps_newest 1 [pruneWitnessOld, pruneWitnessNew] pruneWitnessNew
    (by decide)
    (List.mem_cons_of_mem _ (List.mem_cons_self _ _))
    (by
      intro b hb hne
      rcases List.mem_cons.mp hb with rfl | hb2
      · decide
      · rcases List.mem_cons.mp hb2 with rfl | hb3
        · exact absurd rfl hne
        · cases hb3)
    (by decide)).1

/-! ## C1: the recovery cascade -/

/-- A structurally valid payload: an object with an empty files array. -/
def filesPayloadA : Json := .obj [("files", .arr [])]

/-- A second structurally valid payload, distinguishable from the first. -/
def filesPayloadB : Json := .obj [("files", .arr [.str "f1"])]

/-- Newest snapshot with a checksum that does not match its content. -/
def cexNewest : BackupData :=
  { id := "backup_3", content := jsonStringify filesPayloadA, timestamp := 3,
    version := 3, checksum := "corrupt" }

/-- Second-newest snapshot, also checksum-corrupted, but whose content still
parses and validates. -/
def cexSecond : BackupData :=
  { id := "backup_2", content := jsonStringify filesPayloadB, timestamp := 2,
    version := 2, checksum := "corrupt" }

/-- Second-newest snapshot whose content is not valid JSON. -/
def cexGarbage : BackupData :=
  { id := "backup_2g", content := .raw "garbage", timestamp := 2,
    version := 2, checksum := "corrupt" }

/-- Oldest snapshot, fully valid: its checksum matches its content. -/
def cexValidOld : BackupData :=
  { id := "backup_1", content := jsonStringify filesPayloadA, timestamp := 1,
    version := 1, checksum := generateChecksum (jsonStringify filesPayloadA) }

/-- C1 counterexample: with two checksum-corrupted snapshots whose newest
fails verification, recovery returns the second snapshot's payload without
ever checksum-verifying it, instead of reporting RecoveryUnavailable; and
with [corrupted, unparsable, fully valid] recovery returns nothing even
though a valid snapshot exists past the second, because older snapshots are
never tried. -/
theorem recoverFromCrash_counterexample :
    verifyBackup cexNewest = false ∧
    verifyBackup cexSecond = false ∧
    recoverFromCrash [cexNewest, cexSecond] = some filesPayloadB ∧
    verifyBackup cexValidOld = true ∧
    recoverFromCrash [cexNewest, cexGarbage, cexValidOld] = none :=
  ⟨by decide, by decide, rfl, by decide, rfl⟩

/-- C1 amended: recovery sorts the stored snapshots most-recent-first and
checksum-verifies only the newest; if it verifies, recovery parses and
validates the newest snapshot; otherwise recovery parses and validates
exactly the second-newest snapshot, without checksum verification, and
snapshots beyond the second are never consulted. -/
theorem recoverFromCrash_amended (backups : List BackupData) (b1 b2 : BackupData)
    (rest : List BackupData) (hsort : sortBackupsDesc backups = b1 :: b2 :: rest) :
    (verifyBackup b1 = true → recoverFromCrash backups = recoverFromBackup b1) ∧
    (verifyBackup b1 = false → recoverFromCrash backups = recoverFromBackup b2) := by
  have hne : ¬ backups.length = 0 := by
    intro h0
    have hnil : backups = [] := List.length_eq_zero.mp h0
    rw [hnil] at hsort
    simp [sortBackupsDesc] at hsort
  constructor <;> intro hv <;> simp [recoverFromCrash, hne, hsort, hv]

/-- A fully valid newest snapshot for the C1 witness. -/
def cexValidNewest : BackupData :=
  { id := "backup_4", content := jsonStringify filesPayloadA, timestamp := 4,
    version := 4, checksum := generateChecksum (jsonStringify filesPayloadA) }

/-- Witness for C1 amended: a verified newest snapshot is the one recovered
from. -/
theorem recoverFromCrash_amended_witness :
    recoverFromCrash [cexValidNewest, cexSecond] = recoverFromBackup cexValidNewest :=
  (recoverFromCrash_amended [cexValidNewest, cexSecond] cexValidNewest cexSecond []
    rfl).1 (by decide)

/-! ## C2: version numbering -/

theorem createBackup_backupCount (now : Nat) (data : Json) (st : ServiceState) :
    (createBackup true now data st).1.recoveryState.backupCount
      = st.recoveryState.backupCount + 1 := rfl

/-- C2 amended: each successful createBackup stamps the new snapshot with
version = (number of prior successful creates in this service session) + 1,
so versions within a session are 1, 2, 3, ... — strictly increasing by
exactly 1 per successful create, starting at 1. -/
theorem createBackup_versions_session (n : Nat) :
    (runCreates n).recoveryState.backupCount = n ∧
    (mkBackup (n + 1) Json.null (runCreates n)).version = n + 1 := by
  have count : ∀ m, (runCreates m).recoveryState.backupCount = m := by
    intro m
    induction m with
    | zero => rfl
    | succ k ih =>
      show (createBackup true (k + 1) Json.null
        (runCreates k)).1.recoveryState.backupCount = k + 1
      rw [createBackup_backupCount, ih]
  refine ⟨count n, ?_⟩
  show (runCreates n).recoveryState.backupCount + 1 = n + 1
  rw [count n]

/-- C2 counterexample: after 11 successful creates with the default
retention bound of 10, the store holds 10 snapshots, yet the 12th create
stamps version 12, not (count of existing snapshots) + 1 = 11 — the version
comes from the session counter, which pruning has decoupled from the number
of snapshots existing in the stream. -/
theorem createBackup_version_not_store_count :
    (runCreates 11).store.length = 10 ∧
    (mkBackup 12 Json.null (runCreates 11)).version = 12 ∧
    (mkBackup 12 Json.null (runCreates 11)).version ≠
      (runCreates 11).store.length + 1 := by
  refine ⟨by decide, by decide, by decide⟩
